import Mathlib

/-!
# Verification of `dmriphantomutils/fit_dki.py`

A shallow embedding of the `fit_dki` module: the three-stage pipeline that
fits a diffusion kurtosis (DKI) model to a diffusion-weighted image (DWI)
and writes the requested scalar parameter maps to disk.

Modelling decisions:

* Numeric arrays live in an explicit heap (`Heap`) and are referred to by
  natural-number addresses, so that Python object identity ("that exact mask
  object"), freshness of allocated arrays and absence of mutation are
  expressible.  Every allocation appends to the heap; mutation would be a
  pointwise update, which the embedded code never performs.
* The external collaborators (`scipy.ndimage.gaussian_filter`,
  `dipy`'s `DiffusionKurtosisModel.fit`, `image_io.load_dwi`) are parameters
  of the embedded functions, and every call into them is recorded in an
  event trace (`Event`), so that claims about which arguments reach the
  external libraries are statements about the trace.
* File output is modelled by a disk state (a list of written files) together
  with a `writeOk` parameter giving which paths are writable; a failing
  write models the uncaught Python exception: the run records the failing
  path and executes nothing afterwards.
-/

/-- A 4-dimensional numeric array (three spatial axes plus the gradient
axis), as handled by `numpy`: a shape and the values. -/
structure Array4D where
  n0 : Nat
  n1 : Nat
  n2 : Nat
  n3 : Nat
  val : Nat → Nat → Nat → Nat → ℚ

/-- A 3-dimensional numeric array (scalar map or mask). -/
structure Array3D where
  n0 : Nat
  n1 : Nat
  n2 : Nat
  val : Nat → Nat → Nat → ℚ

instance : Inhabited Array4D := ⟨⟨0, 0, 0, 0, fun _ _ _ _ => 0⟩⟩

instance : Inhabited Array3D := ⟨⟨0, 0, 0, fun _ _ _ => 0⟩⟩

/-- `a.shape[:3]`: the first three dimensions of a 4D array. -/
def Array4D.shape3 (a : Array4D) : Nat × Nat × Nat := (a.n0, a.n1, a.n2)

/-- `numpy.ones(shape)` for a 3-tuple shape: an all-ones 3D array. -/
def np_ones (s : Nat × Nat × Nat) : Array3D :=
  ⟨s.1, s.2.1, s.2.2, fun _ _ _ => 1⟩

/-- The heap of allocated arrays.  Python array objects are identified by
their address (index) in the corresponding list. -/
structure Heap where
  h4 : List Array4D
  h3 : List Array3D

/-- Dereference a 4D array address. -/
def Heap.get4 (h : Heap) (r : Nat) : Array4D := h.h4.getD r default

/-- Dereference a 3D array address. -/
def Heap.get3 (h : Heap) (r : Nat) : Array3D := h.h3.getD r default

/-- Allocate a fresh 4D array; returns the extended heap and the new
address. -/
def Heap.alloc4 (h : Heap) (a : Array4D) : Heap × Nat :=
  (⟨h.h4 ++ [a], h.h3⟩, h.h4.length)

/-- Allocate a fresh 3D array; returns the extended heap and the new
address. -/
def Heap.alloc3 (h : Heap) (a : Array3D) : Heap × Nat :=
  (⟨h.h4, h.h3 ++ [a]⟩, h.h3.length)

/-- A gradient table: b-values and b-vectors, one per gradient direction. -/
structure GradientTable where
  bvals : List ℚ
  bvecs : List (ℚ × ℚ × ℚ)

/-- `dki.DiffusionKurtosisModel(gtab)`: per the source it is parameterized
solely by the gradient table. -/
structure DkiModel where
  gtab : GradientTable

/-- Spatial metadata of a NIfTI image: the affine matrix, kept abstract as
rows of rationals. -/
structure Affine where
  rows : List (List ℚ)

/-- Format metadata of a NIfTI image, kept abstract as key-value pairs. -/
structure Header where
  entries : List (String × String)

/-- The in-memory NIfTI image object (`dwi.img`): spatial metadata plus the
address of the 4D voxel data array. -/
structure NiftiImage where
  affine : Affine
  header : Header
  dataRef : Nat

/-- The state of the record's `mask` attribute.  Python distinguishes an
absent attribute (access raises `AttributeError`) from an attribute that is
present and bound to `None` or to an array, so the embedding does too. -/
inductive MaskAttr
  | absent
  | present (v : Option Nat)

/-- A DWI record as produced by `image_io.load_dwi`: the image object, the
gradient table, and the optional `mask` attribute (an address of a 3D
array when set to an array). -/
structure DWI where
  img : NiftiImage
  gtab : GradientTable
  maskAttr : MaskAttr

/-- Modelled from the spec: `image_io`'s `getImage()` accessor on the DWI
record, which exposes the record's 4D voxel array (here: its address).
`image_io` is part of this repository but is not among the given sources;
the spec describes the record as "exposing a 4D voxel array". -/
def DWI.getImage (dwi : DWI) : Nat := dwi.img.dataRef

/-- The result of `dkimodel.fit`: fa/md/ad/rd are precomputed attributes,
mk/ak/rk are zero-argument accessor methods. -/
structure FitResult where
  ofMaps ::
  fa : Array3D
  md : Array3D
  ad : Array3D
  rd : Array3D
  mk : Unit → Array3D
  ak : Unit → Array3D
  rk : Unit → Array3D

/-- Trace events: the calls made into the external libraries.
`gfCall r sigma` is a `scipy.ndimage.gaussian_filter` call on the array at
address `r` with the per-axis sigma vector `sigma`; `fitCall m d k` is the
`dkimodel.fit(data, mask)` call with data array address `d` and mask
argument `k` (`none` is Python `None`); `mkCall`/`akCall`/`rkCall` are the
zero-argument kurtosis accessor invocations on the fit result. -/
inductive Event
  | gfCall (dataRef : Nat) (sigma : List ℚ)
  | fitCall (model : DkiModel) (dataRef : Nat) (mask : Option Nat)
  | mkCall
  | akCall
  | rkCall

/-- Shallow embedding of `fit_dki(dwi, blur=False)`.

External collaborators are parameters: `gf` models
`scipy.ndimage.gaussian_filter` (it returns a fresh array, which the
embedding allocates), `fitExt` models `DiffusionKurtosisModel.fit` (it
receives the contents of the data array and of the mask argument).

Returns the fit result together with the post-call heap and the trace of
external calls.  Following the source: build the model from `dwi.gtab`,
take `data = dwi.getImage()`, blur it with sigma `[0.5, 0.5, 0, 0]` when
`blur` is set, then take `mask = dwi.mask`, substituting
`np.ones(data.shape[:3])` only when the attribute access raises
`AttributeError`, and finally call `dkimodel.fit(data, mask)`. -/
def fit_dki (gf : Array4D → List ℚ → Array4D)
    (fitExt : DkiModel → Array4D → Option Array3D → FitResult)
    (dwi : DWI) (blur : Bool) (h : Heap) :
    FitResult × Heap × List Event :=
  let dkimodel : DkiModel := ⟨dwi.gtab⟩
  let dataRef := dwi.getImage
  let st1 : Nat × Heap × List Event :=
    if blur then
      let blurred := gf (h.get4 dataRef) [1/2, 1/2, 0, 0]
      let (h2, r) := h.alloc4 blurred
      (r, h2, [Event.gfCall dataRef [1/2, 1/2, 0, 0]])
    else
      (dataRef, h, [])
  let dataRef := st1.1
  let h1 := st1.2.1
  let st2 : Option Nat × Heap :=
    match dwi.maskAttr with
    | MaskAttr.present v => (v, h1)
    | MaskAttr.absent =>
        let (h2, r) := h1.alloc3 (np_ones (h1.get4 dataRef).shape3)
        (some r, h2)
  let mask := st2.1
  let h2 := st2.2
  (fitExt dkimodel (h2.get4 dataRef) (mask.map h2.get3),
   h2, st1.2.2 ++ [Event.fitCall dkimodel dataRef mask])

/-- The `gaussian_filter` calls recorded in a trace, with their arguments. -/
def gfCallsOf : List Event → List (Nat × List ℚ)
  | [] => []
  | Event.gfCall r s :: es => (r, s) :: gfCallsOf es
  | _ :: es => gfCallsOf es

/-- The `dkimodel.fit` calls recorded in a trace, with their arguments. -/
def fitCallsOf : List Event → List (DkiModel × Nat × Option Nat)
  | [] => []
  | Event.fitCall m d k :: es => (m, d, k) :: fitCallsOf es
  | _ :: es => fitCallsOf es

/-- A file path. -/
abbrev FsPath := String

/-- A file written to disk: the path, the 3D map array that was saved, and
the spatial metadata it was saved with. -/
structure FileRecord where
  path : FsPath
  arr : Array3D
  affine : Affine
  header : Header

/-- The observable state of a writer run: the files on disk (in the order
they were written), the trace of kurtosis accessor invocations, and, when a
write has raised, the path whose write failed.  A raised write models an
uncaught Python exception: once `failed` is set, no further statement of
the run executes. -/
structure SaveState where
  disk : List FileRecord
  events : List Event
  failed : Option FsPath

/-- Modelled from the spec: `image_io.save_image(array, affine, header,
path)` writes the array with the given metadata to `path` and fails on an
I/O or format error.  `image_io` is part of this repository but is not
among the given sources.  The `writeOk` parameter gives which paths are
writable; an unwritable path raises, recorded in `failed`. -/
def save_image (writeOk : FsPath → Bool) (arr : Array3D) (affine : Affine)
    (header : Header) (path : FsPath) (st : SaveState) : SaveState :=
  if writeOk path then
    { st with disk := st.disk ++ [⟨path, arr, affine, header⟩] }
  else
    { st with failed := some path }

/-- How one output slot obtains its map from the fit result: `attr` is a
precomputed attribute read (fa/md/ad/rd); `acc` is a zero-argument accessor
call (mk/ak/rk), which is recorded in the trace as event `e` when made. -/
inductive MapSrc
  | attr (a : Array3D)
  | acc (f : Unit → Array3D) (e : Event)

/-- One `if <path> is not None: image_io.save_image(...)` block of
`save_metric_imgs`.  The outer guard models exception propagation: after a
failed write nothing later in the function body runs.  For an accessor slot
the accessor is invoked (and traced) before the write is attempted, exactly
as in `image_io.save_image(dkifit.mk(), ...)`. -/
def runSlot (writeOk : FsPath → Bool) (affine : Affine) (header : Header)
    (st : SaveState) : Option FsPath × MapSrc → SaveState
  | (pathOpt, src) =>
    if st.failed.isSome then st
    else
      match pathOpt, src with
      | none, _ => st
      | some p, MapSrc.attr a => save_image writeOk a affine header p st
      | some p, MapSrc.acc f e =>
          save_image writeOk (f ()) affine header p
            { st with events := st.events ++ [e] }

/-- Run a sequence of output-slot blocks in order. -/
def runWrites (writeOk : FsPath → Bool) (affine : Affine) (header : Header)
    (st : SaveState) (rs : List (Option FsPath × MapSrc)) : SaveState :=
  rs.foldl (runSlot writeOk affine header) st

/-- The seven output slots of `save_metric_imgs`, in source order:
fa, md, ad, rd (attribute reads), then mk, ak, rk (accessor calls). -/
def slotList (dkifit : FitResult)
    (fa_path md_path ad_path rd_path mk_path ak_path rk_path : Option FsPath) :
    List (Option FsPath × MapSrc) :=
  [(fa_path, MapSrc.attr dkifit.fa),
   (md_path, MapSrc.attr dkifit.md),
   (ad_path, MapSrc.attr dkifit.ad),
   (rd_path, MapSrc.attr dkifit.rd),
   (mk_path, MapSrc.acc dkifit.mk Event.mkCall),
   (ak_path, MapSrc.acc dkifit.ak Event.akCall),
   (rk_path, MapSrc.acc dkifit.rk Event.rkCall)]

/-- Shallow embedding of `save_metric_imgs(dwi, dkifit, fa_path=None, ...,
rk_path=None)`: take the source affine and header from `dwi.img`, then run
the seven conditional writes in source order.  `st` is the incoming run
state (an empty disk and trace for a fresh run). -/
def save_metric_imgs (writeOk : FsPath → Bool) (dwi : DWI) (dkifit : FitResult)
    (fa_path md_path ad_path rd_path mk_path ak_path rk_path : Option FsPath)
    (st : SaveState) : SaveState :=
  let source_affine := dwi.img.affine
  let source_header := dwi.img.header
  runWrites writeOk source_affine source_header st
    (slotList dkifit fa_path md_path ad_path rd_path mk_path ak_path rk_path)

namespace FitDkiScript

/-- Shallow embedding of `main(nifti_path, bval_path, bvec_path,
mask_path=None, blur=False, fa_path=None, ..., rk_path=None)`: load the
DWI record, fit it, save the requested maps.  `load_dwi` abstracts
`image_io.load_dwi` (it may allocate into the heap); `st` is the incoming
writer state.  Returns the final writer state together with the heap and
the fit-stage trace. -/
def main
    (load_dwi : FsPath → FsPath → FsPath → Option FsPath → Heap → DWI × Heap)
    (gf : Array4D → List ℚ → Array4D)
    (fitExt : DkiModel → Array4D → Option Array3D → FitResult)
    (writeOk : FsPath → Bool)
    (nifti_path bval_path bvec_path : FsPath) (mask_path : Option FsPath)
    (blur : Bool)
    (fa_path md_path ad_path rd_path mk_path ak_path rk_path : Option FsPath)
    (h : Heap) (st : SaveState) : SaveState × Heap × List Event :=
  let dwiLoad := load_dwi nifti_path bval_path bvec_path mask_path h
  let dwi := dwiLoad.1
  let fitOut := fit_dki gf fitExt dwi blur dwiLoad.2
  let dkifit := fitOut.1
  (save_metric_imgs writeOk dwi dkifit fa_path md_path ad_path rd_path
      mk_path ak_path rk_path st,
   fitOut.2.1, fitOut.2.2)

end FitDkiScript

/-- The spec's description of the orchestrator, written as the bare
composition: `save_metric_imgs(dwi, fit_dki(dwi, blur), paths...)` where
`dwi = load_dwi(nifti_path, bval_path, bvec_path, mask_path)`, with no
branching of its own. -/
def mainSpec
    (load_dwi : FsPath → FsPath → FsPath → Option FsPath → Heap → DWI × Heap)
    (gf : Array4D → List ℚ → Array4D)
    (fitExt : DkiModel → Array4D → Option Array3D → FitResult)
    (writeOk : FsPath → Bool)
    (nifti_path bval_path bvec_path : FsPath) (mask_path : Option FsPath)
    (blur : Bool)
    (fa_path md_path ad_path rd_path mk_path ak_path rk_path : Option FsPath)
    (h : Heap) (st : SaveState) : SaveState × Heap × List Event :=
  (save_metric_imgs writeOk
      (load_dwi nifti_path bval_path bvec_path mask_path h).1
      (fit_dki gf fitExt (load_dwi nifti_path bval_path bvec_path mask_path h).1
        blur (load_dwi nifti_path bval_path bvec_path mask_path h).2).1
      fa_path md_path ad_path rd_path mk_path ak_path rk_path st,
   (fit_dki gf fitExt (load_dwi nifti_path bval_path bvec_path mask_path h).1
      blur (load_dwi nifti_path bval_path bvec_path mask_path h).2).2.1,
   (fit_dki gf fitExt (load_dwi nifti_path bval_path bvec_path mask_path h).1
      blur (load_dwi nifti_path bval_path bvec_path mask_path h).2).2.2)

/-- The map an output slot would save: the attribute value, or the result
of the accessor call. -/
def srcMap : MapSrc → Array3D
  | MapSrc.attr a => a
  | MapSrc.acc f _ => f ()

/-- The writes a slot list requests: one `(path, map)` pair per slot whose
path is non-null, in slot order. -/
def requestedWrites : List (Option FsPath × MapSrc) → List (FsPath × Array3D)
  | [] => []
  | (none, _) :: rs => requestedWrites rs
  | (some p, src) :: rs => (p, srcMap src) :: requestedWrites rs

/-- The accessor events a slot list would record on a fully successful run:
one per accessor slot whose path is non-null, in slot order. -/
def accEvents : List (Option FsPath × MapSrc) → List Event
  | [] => []
  | (none, _) :: rs => accEvents rs
  | (some _, MapSrc.attr _) :: rs => accEvents rs
  | (some _, MapSrc.acc _ e) :: rs => e :: accEvents rs

/-- The prefix of requested writes that actually lands on disk: everything
before the first write whose path is not writable. -/
def writableTake (writeOk : FsPath → Bool) : List (FsPath × Array3D) → List (FsPath × Array3D)
  | [] => []
  | (p, a) :: rs => if writeOk p then (p, a) :: writableTake writeOk rs else []

/-- The first requested path that is not writable, if any: the write that
raises. -/
def firstFail (writeOk : FsPath → Bool) : List (FsPath × Array3D) → Option FsPath
  | [] => none
  | (p, _) :: rs => if writeOk p then firstFail writeOk rs else some p

/-- The file record a successful write of `(path, map)` produces. -/
def toRec (affine : Affine) (header : Header) (x : FsPath × Array3D) : FileRecord :=
  ⟨x.1, x.2, affine, header⟩

/-- The file records one output slot contributes: one record when its path
is non-null, none otherwise. -/
def optFile (affine : Affine) (header : Header) (o : Option FsPath)
    (a : Array3D) : List FileRecord :=
  match o with
  | none => []
  | some p => [⟨p, a, affine, header⟩]

/-- The trace events one accessor slot contributes: its event when its path
is non-null, none otherwise. -/
def optEv (o : Option FsPath) (e : Event) : List Event :=
  match o with
  | none => []
  | some _ => [e]

/-- An output-slot block is a no-op once an earlier write has raised. -/
theorem runSlot_raised (writeOk : FsPath → Bool) (affine : Affine)
    (header : Header) (st : SaveState) (r : Option FsPath × MapSrc)
    (hf : st.failed.isSome) :
    runSlot writeOk affine header st r = st := by
  obtain ⟨pathOpt, src⟩ := r
  simp [runSlot, hf]

/-- An output-slot block with a null path is a no-op. -/
theorem runSlot_nonePath (writeOk : FsPath → Bool) (affine : Affine)
    (header : Header) (st : SaveState) (src : MapSrc) :
    runSlot writeOk affine header st (none, src) = st := by
  by_cases hf : st.failed.isSome <;> simp [runSlot, hf]

/-- A successful attribute-slot write appends its file record. -/
theorem runSlot_attr_ok (writeOk : FsPath → Bool) (affine : Affine)
    (header : Header) (st : SaveState) (p : FsPath) (a : Array3D)
    (hf : st.failed = none) (hw : writeOk p = true) :
    runSlot writeOk affine header st (some p, MapSrc.attr a) =
      { st with disk := st.disk ++ [⟨p, a, affine, header⟩] } := by
  simp [runSlot, save_image, hf, hw]

/-- A failing attribute-slot write raises without touching the disk. -/
theorem runSlot_attr_fail (writeOk : FsPath → Bool) (affine : Affine)
    (header : Header) (st : SaveState) (p : FsPath) (a : Array3D)
    (hf : st.failed = none) (hw : writeOk p = false) :
    runSlot writeOk affine header st (some p, MapSrc.attr a) =
      { st with failed := some p } := by
  simp [runSlot, save_image, hf, hw]

/-- A successful accessor-slot write records the accessor invocation and
appends its file record. -/
theorem runSlot_acc_ok (writeOk : FsPath → Bool) (affine : Affine)
    (header : Header) (st : SaveState) (p : FsPath) (f : Unit → Array3D)
    (e : Event) (hf : st.failed = none) (hw : writeOk p = true) :
    runSlot writeOk affine header st (some p, MapSrc.acc f e) =
      { st with
          events := st.events ++ [e],
          disk := st.disk ++ [⟨p, f (), affine, header⟩] } := by
  simp [runSlot, save_image, hf, hw]

/-- A failing accessor-slot write still records the accessor invocation
(the accessor runs before the write), then raises. -/
theorem runSlot_acc_fail (writeOk : FsPath → Bool) (affine : Affine)
    (header : Header) (st : SaveState) (p : FsPath) (f : Unit → Array3D)
    (e : Event) (hf : st.failed = none) (hw : writeOk p = false) :
    runSlot writeOk affine header st (some p, MapSrc.acc f e) =
      { st with events := st.events ++ [e], failed := some p } := by
  simp [runSlot, save_image, hf, hw]

/-- Once a write has raised, the rest of the writer body does not run. -/
theorem runWrites_stuck (writeOk : FsPath → Bool) (affine : Affine)
    (header : Header) (rs : List (Option FsPath × MapSrc)) (st : SaveState)
    (hf : st.failed.isSome) :
    runWrites writeOk affine header st rs = st := by
  induction rs with
  | nil => rfl
  | cons r rs ih =>
      show runWrites writeOk affine header
        (runSlot writeOk affine header st r) rs = st
      rw [runSlot_raised writeOk affine header st r hf]
      exact ih

/-- Disk contents of a writer run started in a non-raised state: the
incoming disk followed by one record per requested write up to (and
excluding) the first unwritable path. -/
theorem runWrites_disk (writeOk : FsPath → Bool) (affine : Affine)
    (header : Header) (rs : List (Option FsPath × MapSrc)) (st : SaveState)
    (hf : st.failed = none) :
    (runWrites writeOk affine header st rs).disk =
      st.disk ++ (writableTake writeOk (requestedWrites rs)).map (toRec affine header) := by
  induction rs generalizing st with
  | nil => simp [runWrites, writableTake, requestedWrites]
  | cons r rs ih =>
      obtain ⟨pathOpt, src⟩ := r
      show (runWrites writeOk affine header
        (runSlot writeOk affine header st (pathOpt, src)) rs).disk = _
      cases pathOpt with
      | none =>
          rw [runSlot_nonePath, ih st hf]
          rfl
      | some p =>
          cases hw : writeOk p with
          | true =>
              cases src with
              | attr a =>
                  rw [runSlot_attr_ok writeOk affine header st p a hf hw,
                    ih { st with disk := st.disk ++ [⟨p, a, affine, header⟩] } hf]
                  simp [requestedWrites, writableTake, hw, srcMap, toRec]
              | acc f e =>
                  rw [runSlot_acc_ok writeOk affine header st p f e hf hw,
                    ih { st with
                          events := st.events ++ [e],
                          disk := st.disk ++ [⟨p, f (), affine, header⟩] } hf]
                  simp [requestedWrites, writableTake, hw, srcMap, toRec]
          | false =>
              cases src with
              | attr a =>
                  rw [runSlot_attr_fail writeOk affine header st p a hf hw,
                    runWrites_stuck writeOk affine header rs _ (by simp)]
                  simp [requestedWrites, writableTake, hw]
              | acc f e =>
                  rw [runSlot_acc_fail writeOk affine header st p f e hf hw,
                    runWrites_stuck writeOk affine header rs _ (by simp)]
                  simp [requestedWrites, writableTake, hw]

/-- Failure status of a writer run started in a non-raised state: the first
requested path that is not writable, if any. -/
theorem runWrites_failed (writeOk : FsPath → Bool) (affine : Affine)
    (header : Header) (rs : List (Option FsPath × MapSrc)) (st : SaveState)
    (hf : st.failed = none) :
    (runWrites writeOk affine header st rs).failed =
      firstFail writeOk (requestedWrites rs) := by
  induction rs generalizing st with
  | nil => simp [runWrites, firstFail, requestedWrites, hf]
  | cons r rs ih =>
      obtain ⟨pathOpt, src⟩ := r
      show (runWrites writeOk affine header
        (runSlot writeOk affine header st (pathOpt, src)) rs).failed = _
      cases pathOpt with
      | none =>
          rw [runSlot_nonePath, ih st hf]
          rfl
      | some p =>
          cases hw : writeOk p with
          | true =>
              cases src with
              | attr a =>
                  rw [runSlot_attr_ok writeOk affine header st p a hf hw,
                    ih { st with disk := st.disk ++ [⟨p, a, affine, header⟩] } hf]
                  simp [requestedWrites, firstFail, hw]
              | acc f e =>
                  rw [runSlot_acc_ok writeOk affine header st p f e hf hw,
                    ih { st with
                          events := st.events ++ [e],
                          disk := st.disk ++ [⟨p, f (), affine, header⟩] } hf]
                  simp [requestedWrites, firstFail, hw]
          | false =>
              cases src with
              | attr a =>
                  rw [runSlot_attr_fail writeOk affine header st p a hf hw,
                    runWrites_stuck writeOk affine header rs _ (by simp)]
                  simp [requestedWrites, firstFail, hw]
              | acc f e =>
                  rw [runSlot_acc_fail writeOk affine header st p f e hf hw,
                    runWrites_stuck writeOk affine header rs _ (by simp)]
                  simp [requestedWrites, firstFail, hw]

/-- Accessor trace of a fully successful writer run: the incoming trace
followed by one accessor event per requested accessor slot, in order. -/
theorem runWrites_events_ok (writeOk : FsPath → Bool) (affine : Affine)
    (header : Header) (rs : List (Option FsPath × MapSrc)) (st : SaveState)
    (hf : st.failed = none)
    (hok : ∀ x ∈ requestedWrites rs, writeOk x.1 = true) :
    (runWrites writeOk affine header st rs).events = st.events ++ accEvents rs := by
  induction rs generalizing st with
  | nil => simp [runWrites, accEvents]
  | cons r rs ih =>
      obtain ⟨pathOpt, src⟩ := r
      show (runWrites writeOk affine header
        (runSlot writeOk affine header st (pathOpt, src)) rs).events = _
      cases pathOpt with
      | none =>
          rw [runSlot_nonePath,
            ih st hf (by intro x hx; exact hok x (by rw [requestedWrites]; exact hx))]
          rfl
      | some p =>
          have hw : writeOk p = true := by
            have := hok (p, srcMap src) (by rw [requestedWrites]; exact List.mem_cons_self _ _)
            exact this
          have hok' : ∀ x ∈ requestedWrites rs, writeOk x.1 = true := by
            intro x hx
            exact hok x (by rw [requestedWrites]; exact List.mem_cons_of_mem _ hx)
          cases src with
          | attr a =>
              rw [runSlot_attr_ok writeOk affine header st p a hf hw,
                ih { st with disk := st.disk ++ [⟨p, a, affine, header⟩] } hf hok']
              simp [accEvents]
          | acc f e =>
              rw [runSlot_acc_ok writeOk affine header st p f e hf hw,
                ih { st with
                      events := st.events ++ [e],
                      disk := st.disk ++ [⟨p, f (), affine, header⟩] } hf hok']
              simp [accEvents]

/-- When every requested path is writable, every requested write lands. -/
theorem writableTake_all (writeOk : FsPath → Bool)
    (l : List (FsPath × Array3D)) (hok : ∀ x ∈ l, writeOk x.1 = true) :
    writableTake writeOk l = l := by
  induction l with
  | nil => rfl
  | cons x l ih =>
      obtain ⟨p, a⟩ := x
      rw [writableTake, if_pos (hok (p, a) (List.mem_cons_self _ _))]
      rw [ih (fun y hy => hok y (List.mem_cons_of_mem _ hy))]

/-- When every requested path is writable, no write raises. -/
theorem firstFail_all (writeOk : FsPath → Bool)
    (l : List (FsPath × Array3D)) (hok : ∀ x ∈ l, writeOk x.1 = true) :
    firstFail writeOk l = none := by
  induction l with
  | nil => rfl
  | cons x l ih =>
      obtain ⟨p, a⟩ := x
      rw [firstFail, if_pos (hok (p, a) (List.mem_cons_self _ _))]
      exact ih (fun y hy => hok y (List.mem_cons_of_mem _ hy))

/-- Splitting the requested writes at the first unwritable path: everything
before it lands. -/
theorem writableTake_split (writeOk : FsPath → Bool)
    (pre post : List (FsPath × Array3D)) (q : FsPath) (a : Array3D)
    (hpre : ∀ x ∈ pre, writeOk x.1 = true) (hq : writeOk q = false) :
    writableTake writeOk (pre ++ (q, a) :: post) = pre := by
  induction pre with
  | nil => simp [writableTake, hq]
  | cons x pre ih =>
      obtain ⟨p, b⟩ := x
      rw [List.cons_append, writableTake,
        if_pos (hpre (p, b) (List.mem_cons_self _ _))]
      rw [ih (fun y hy => hpre y (List.mem_cons_of_mem _ hy))]

/-- The writes one slot requests: its `(path, map)` pair when its path is
non-null, nothing otherwise. -/
def optPair (o : Option FsPath) (a : Array3D) : List (FsPath × Array3D) :=
  match o with
  | none => []
  | some p => [(p, a)]

/-- The writes `save_metric_imgs` requests, in slot order
fa, md, ad, rd, mk, ak, rk, restricted to the slots whose path is
non-null. -/
def requestedOf (dkifit : FitResult)
    (fa_path md_path ad_path rd_path mk_path ak_path rk_path : Option FsPath) :
    List (FsPath × Array3D) :=
  optPair fa_path dkifit.fa ++ optPair md_path dkifit.md ++
    optPair ad_path dkifit.ad ++ optPair rd_path dkifit.rd ++
    optPair mk_path (dkifit.mk ()) ++ optPair ak_path (dkifit.ak ()) ++
    optPair rk_path (dkifit.rk ())

/-- The accessor events one slot contributes: its event when it is an
accessor slot with a non-null path. -/
def srcEv (o : Option FsPath) : MapSrc → List Event
  | MapSrc.attr _ => []
  | MapSrc.acc _ e => optEv o e

theorem requestedWrites_cons (o : Option FsPath) (src : MapSrc)
    (rs : List (Option FsPath × MapSrc)) :
    requestedWrites ((o, src) :: rs) = optPair o (srcMap src) ++ requestedWrites rs := by
  cases o <;> rfl

theorem accEvents_cons (o : Option FsPath) (src : MapSrc)
    (rs : List (Option FsPath × MapSrc)) :
    accEvents ((o, src) :: rs) = srcEv o src ++ accEvents rs := by
  cases src <;> cases o <;> rfl

theorem requestedWrites_slotList (dkifit : FitResult)
    (fa_path md_path ad_path rd_path mk_path ak_path rk_path : Option FsPath) :
    requestedWrites
        (slotList dkifit fa_path md_path ad_path rd_path mk_path ak_path rk_path) =
      requestedOf dkifit fa_path md_path ad_path rd_path mk_path ak_path rk_path := by
  simp [slotList, requestedWrites_cons, requestedWrites, srcMap, requestedOf]

theorem accEvents_slotList (dkifit : FitResult)
    (fa_path md_path ad_path rd_path mk_path ak_path rk_path : Option FsPath) :
    accEvents
        (slotList dkifit fa_path md_path ad_path rd_path mk_path ak_path rk_path) =
      optEv mk_path Event.mkCall ++ optEv ak_path Event.akCall ++
        optEv rk_path Event.rkCall := by
  simp [slotList, accEvents_cons, accEvents, srcEv]

theorem map_toRec_optPair (affine : Affine) (header : Header)
    (o : Option FsPath) (a : Array3D) :
    (optPair o a).map (toRec affine header) = optFile affine header o a := by
  cases o <;> rfl

/-- Splitting the requested writes at the first unwritable path: that path
is the one that raises. -/
theorem firstFail_split (writeOk : FsPath → Bool)
    (pre post : List (FsPath × Array3D)) (q : FsPath) (a : Array3D)
    (hpre : ∀ x ∈ pre, writeOk x.1 = true) (hq : writeOk q = false) :
    firstFail writeOk (pre ++ (q, a) :: post) = some q := by
  induction pre with
  | nil => simp [firstFail, hq]
  | cons x pre ih =>
      obtain ⟨p, b⟩ := x
      rw [List.cons_append, firstFail,
        if_pos (hpre (p, b) (List.mem_cons_self _ _))]
      exact ih (fun y hy => hpre y (List.mem_cons_of_mem _ hy))

/-- Metadata of the records a list of successful writes produces: every
record carries the given affine and header. -/
theorem toRec_metadata (affine : Affine) (header : Header)
    (l : List (FsPath × Array3D)) :
    (l.map (toRec affine header)).map (fun f => (f.affine, f.header)) =
      List.replicate l.length (affine, header) := by
  induction l with
  | nil => rfl
  | cons x l ih => simp [toRec, List.replicate_succ, ih]

/-- C1: for every fit result and every assignment of the seven optional
output paths, `save_metric_imgs` (with every path writable) writes exactly
one file for each slot whose path is non-null, in slot order, and no file
for a null slot; and the mk/ak/rk zero-argument accessors are invoked
exactly when the corresponding path is non-null. -/
theorem save_metric_imgs_writes_exactly_requested
    (dwi : DWI) (dkifit : FitResult)
    (fa_path md_path ad_path rd_path mk_path ak_path rk_path : Option FsPath)
    (d0 : List FileRecord) :
    (save_metric_imgs (fun _ => true) dwi dkifit fa_path md_path ad_path rd_path
        mk_path ak_path rk_path ⟨d0, [], none⟩).disk =
      d0 ++ (optFile dwi.img.affine dwi.img.header fa_path dkifit.fa ++
        optFile dwi.img.affine dwi.img.header md_path dkifit.md ++
        optFile dwi.img.affine dwi.img.header ad_path dkifit.ad ++
        optFile dwi.img.affine dwi.img.header rd_path dkifit.rd ++
        optFile dwi.img.affine dwi.img.header mk_path (dkifit.mk ()) ++
        optFile dwi.img.affine dwi.img.header ak_path (dkifit.ak ()) ++
        optFile dwi.img.affine dwi.img.header rk_path (dkifit.rk ())) ∧
    (save_metric_imgs (fun _ => true) dwi dkifit fa_path md_path ad_path rd_path
        mk_path ak_path rk_path ⟨d0, [], none⟩).events =
      optEv mk_path Event.mkCall ++ optEv ak_path Event.akCall ++
        optEv rk_path Event.rkCall ∧
    (save_metric_imgs (fun _ => true) dwi dkifit fa_path md_path ad_path rd_path
        mk_path ak_path rk_path ⟨d0, [], none⟩).failed = none ∧
    (Event.mkCall ∈ (save_metric_imgs (fun _ => true) dwi dkifit fa_path md_path
        ad_path rd_path mk_path ak_path rk_path ⟨d0, [], none⟩).events ↔
      mk_path ≠ none) ∧
    (Event.akCall ∈ (save_metric_imgs (fun _ => true) dwi dkifit fa_path md_path
        ad_path rd_path mk_path ak_path rk_path ⟨d0, [], none⟩).events ↔
      ak_path ≠ none) ∧
    (Event.rkCall ∈ (save_metric_imgs (fun _ => true) dwi dkifit fa_path md_path
        ad_path rd_path mk_path ak_path rk_path ⟨d0, [], none⟩).events ↔
      rk_path ≠ none) := by
  have hok : ∀ x ∈ requestedWrites
      (slotList dkifit fa_path md_path ad_path rd_path mk_path ak_path rk_path),
      (fun _ : FsPath => true) x.1 = true := fun x _ => rfl
  have hd := runWrites_disk (fun _ => true) dwi.img.affine dwi.img.header
    (slotList dkifit fa_path md_path ad_path rd_path mk_path ak_path rk_path)
    ⟨d0, [], none⟩ rfl
  have hf := runWrites_failed (fun _ => true) dwi.img.affine dwi.img.header
    (slotList dkifit fa_path md_path ad_path rd_path mk_path ak_path rk_path)
    ⟨d0, [], none⟩ rfl
  have he := runWrites_events_ok (fun _ => true) dwi.img.affine dwi.img.header
    (slotList dkifit fa_path md_path ad_path rd_path mk_path ak_path rk_path)
    ⟨d0, [], none⟩ rfl hok
  rw [writableTake_all _ _ hok, requestedWrites_slotList] at hd
  rw [firstFail_all _ _ hok] at hf
  rw [accEvents_slotList] at he
  have he' : (save_metric_imgs (fun _ => true) dwi dkifit fa_path md_path ad_path
      rd_path mk_path ak_path rk_path ⟨d0, [], none⟩).events =
      optEv mk_path Event.mkCall ++ optEv ak_path Event.akCall ++
        optEv rk_path Event.rkCall := by
    simpa [save_metric_imgs] using he
  refine ⟨?_, he', ?_, ?_, ?_, ?_⟩
  · simp only [save_metric_imgs]
    rw [hd]
    simp [requestedOf, map_toRec_optPair]
  · simpa [save_metric_imgs] using hf
  · rw [he']
    cases mk_path <;> cases ak_path <;> cases rk_path <;> simp [optEv]
  · rw [he']
    cases mk_path <;> cases ak_path <;> cases rk_path <;> simp [optEv]
  · rw [he']
    cases mk_path <;> cases ak_path <;> cases rk_path <;> simp [optEv]

/-- C9: `save_metric_imgs` performs its writes in the fixed slot order
fa, md, ad, rd, mk, ak, rk restricted to the non-null slots: for an
arbitrary set of writable paths, the files on disk afterwards are exactly
the requested writes up to (and excluding) the first failing one, in that
order. -/
theorem save_metric_imgs_write_order (writeOk : FsPath → Bool)
    (dwi : DWI) (dkifit : FitResult)
    (fa_path md_path ad_path rd_path mk_path ak_path rk_path : Option FsPath)
    (d0 : List FileRecord) (e0 : List Event) :
    (save_metric_imgs writeOk dwi dkifit fa_path md_path ad_path rd_path
        mk_path ak_path rk_path ⟨d0, e0, none⟩).disk =
      d0 ++ (writableTake writeOk
        (requestedOf dkifit fa_path md_path ad_path rd_path mk_path ak_path
          rk_path)).map (toRec dwi.img.affine dwi.img.header) := by
  have hd := runWrites_disk writeOk dwi.img.affine dwi.img.header
    (slotList dkifit fa_path md_path ad_path rd_path mk_path ak_path rk_path)
    ⟨d0, e0, none⟩ rfl
  rw [requestedWrites_slotList] at hd
  simpa [save_metric_imgs] using hd

/-- C7: if the N-th requested write of `save_metric_imgs` fails, the run
terminates fatally at that write: the failing path is recorded, the files
written for the earlier requested slots (in slot order) are on disk, and
no later slot is written and nothing is rolled back. -/
theorem save_metric_imgs_fail_stops (writeOk : FsPath → Bool)
    (dwi : DWI) (dkifit : FitResult)
    (fa_path md_path ad_path rd_path mk_path ak_path rk_path : Option FsPath)
    (d0 : List FileRecord) (e0 : List Event)
    (pre post : List (FsPath × Array3D)) (q : FsPath) (a : Array3D)
    (hsplit : requestedOf dkifit fa_path md_path ad_path rd_path mk_path ak_path
      rk_path = pre ++ (q, a) :: post)
    (hpre : ∀ x ∈ pre, writeOk x.1 = true)
    (hq : writeOk q = false) :
    (save_metric_imgs writeOk dwi dkifit fa_path md_path ad_path rd_path
        mk_path ak_path rk_path ⟨d0, e0, none⟩).failed = some q ∧
    (save_metric_imgs writeOk dwi dkifit fa_path md_path ad_path rd_path
        mk_path ak_path rk_path ⟨d0, e0, none⟩).disk =
      d0 ++ pre.map (toRec dwi.img.affine dwi.img.header) := by
  have hd := runWrites_disk writeOk dwi.img.affine dwi.img.header
    (slotList dkifit fa_path md_path ad_path rd_path mk_path ak_path rk_path)
    ⟨d0, e0, none⟩ rfl
  have hf := runWrites_failed writeOk dwi.img.affine dwi.img.header
    (slotList dkifit fa_path md_path ad_path rd_path mk_path ak_path rk_path)
    ⟨d0, e0, none⟩ rfl
  rw [requestedWrites_slotList, hsplit] at hd hf
  rw [writableTake_split writeOk pre post q a hpre hq] at hd
  rw [firstFail_split writeOk pre post q a hpre hq] at hf
  exact ⟨by simpa [save_metric_imgs] using hf,
    by simpa [save_metric_imgs] using hd⟩

/-- C5: every file `save_metric_imgs` writes carries the affine and header
of the source DWI image, identical across all written slots. -/
theorem save_metric_imgs_metadata (writeOk : FsPath → Bool)
    (dwi : DWI) (dkifit : FitResult)
    (fa_path md_path ad_path rd_path mk_path ak_path rk_path : Option FsPath)
    (e0 : List Event) (f0 : Option FsPath) :
    ((save_metric_imgs writeOk dwi dkifit fa_path md_path ad_path rd_path
        mk_path ak_path rk_path ⟨[], e0, f0⟩).disk).map
        (fun f => (f.affine, f.header)) =
      List.replicate ((save_metric_imgs writeOk dwi dkifit fa_path md_path
        ad_path rd_path mk_path ak_path rk_path ⟨[], e0, f0⟩).disk).length
        (dwi.img.affine, dwi.img.header) := by
  cases f0 with
  | none =>
      have hd := runWrites_disk writeOk dwi.img.affine dwi.img.header
        (slotList dkifit fa_path md_path ad_path rd_path mk_path ak_path rk_path)
        ⟨[], e0, none⟩ rfl
      simp only [save_metric_imgs]
      rw [hd]
      have hm := toRec_metadata dwi.img.affine dwi.img.header
        (writableTake writeOk (requestedWrites
          (slotList dkifit fa_path md_path ad_path rd_path mk_path ak_path rk_path)))
      rw [List.map_map] at hm
      simpa using hm
  | some p =>
      have hs := runWrites_stuck writeOk dwi.img.affine dwi.img.header
        (slotList dkifit fa_path md_path ad_path rd_path mk_path ak_path rk_path)
        ⟨[], e0, some p⟩ (by simp)
      simp [save_metric_imgs, hs]

/-- A concrete 1×1×1 zero map, for witness runs. -/
def arrX : Array3D := ⟨1, 1, 1, fun _ _ _ => 0⟩

/-- A concrete fit result whose seven maps are all `arrX`. -/
def fitX : FitResult :=
  FitResult.ofMaps arrX arrX arrX arrX (fun _ => arrX) (fun _ => arrX) (fun _ => arrX)

/-- A concrete DWI record, for witness runs. -/
def dwiX : DWI := ⟨⟨⟨[]⟩, ⟨[]⟩, 0⟩, ⟨[], []⟩, MaskAttr.present none⟩

/-- Witness for the failure-stop property: with fa and md requested and
only the fa path writable, the run fails at the md path with exactly the
fa file on disk. -/
theorem save_metric_imgs_fail_stops_witness :
    (requestedOf fitX (some "fa.nii") (some "md.nii") none none none none none =
      [("fa.nii", fitX.fa)] ++ ("md.nii", fitX.md) :: []) ∧
    (∀ x ∈ [("fa.nii", fitX.fa)], (fun p : FsPath => p == "fa.nii") x.1 = true) ∧
    ((fun p : FsPath => p == "fa.nii") "md.nii" = false) ∧
    ((save_metric_imgs (fun p => p == "fa.nii") dwiX fitX (some "fa.nii")
        (some "md.nii") none none none none none ⟨[], [], none⟩).failed =
      some "md.nii" ∧
    (save_metric_imgs (fun p => p == "fa.nii") dwiX fitX (some "fa.nii")
        (some "md.nii") none none none none none ⟨[], [], none⟩).disk =
      [] ++ [("fa.nii", fitX.fa)].map (toRec dwiX.img.affine dwiX.img.header)) := by
  have hpre : ∀ x ∈ [(("fa.nii" : FsPath), fitX.fa)],
      (fun p : FsPath => p == "fa.nii") x.1 = true := by
    intro x hx
    rw [List.mem_singleton] at hx
    subst hx
    decide
  refine ⟨rfl, hpre, by decide, ?_⟩
  exact save_metric_imgs_fail_stops (fun p => p == "fa.nii") dwiX fitX
    (some "fa.nii") (some "md.nii") none none none none none [] []
    [("fa.nii", fitX.fa)] [] "md.nii" fitX.md rfl hpre (by decide)

/-- Reading a freshly appended element of a list by its address. -/
theorem getD_snoc_length {α : Type} (l : List α) (a d : α) :
    (l ++ [a]).getD l.length d = a := by
  induction l with
  | nil => rfl
  | cons x l ih =>
      simp only [List.cons_append, List.length_cons, List.getD_cons_succ]
      exact ih

/-- C3: when `blur` is true, `fit_dki` calls the Gaussian filter exactly
once, on the raw voxel array, with the per-axis sigma vector exactly
`[0.5, 0.5, 0, 0]`, for every input. -/
theorem fit_dki_blur_sigma (gf : Array4D → List ℚ → Array4D)
    (fitExt : DkiModel → Array4D → Option Array3D → FitResult)
    (dwi : DWI) (h : Heap) :
    gfCallsOf (fit_dki gf fitExt dwi true h).2.2 =
      [(dwi.getImage, [1/2, 1/2, 0, 0])] := by
  obtain ⟨img, gtab, ma⟩ := dwi
  cases ma <;>
    simp [fit_dki, DWI.getImage, Heap.alloc4, Heap.alloc3, gfCallsOf]

/-- C4: when `blur` is false, `fit_dki` passes the record's raw voxel array
to the external fitting routine bit-identically: the fit call receives the
very array address exposed by the record, its contents are unchanged by the
call, no Gaussian filter call occurs, and the fit result is the external
routine applied to the raw contents. -/
theorem fit_dki_no_blur_raw_data (gf : Array4D → List ℚ → Array4D)
    (fitExt : DkiModel → Array4D → Option Array3D → FitResult)
    (dwi : DWI) (h : Heap) :
    (∃ m, fitCallsOf (fit_dki gf fitExt dwi false h).2.2 =
      [(⟨dwi.gtab⟩, dwi.getImage, m)]) ∧
    (fit_dki gf fitExt dwi false h).2.1.get4 dwi.getImage = h.get4 dwi.getImage ∧
    gfCallsOf (fit_dki gf fitExt dwi false h).2.2 = [] ∧
    (∃ mc, (fit_dki gf fitExt dwi false h).1 =
      fitExt ⟨dwi.gtab⟩ (h.get4 dwi.getImage) mc) := by
  obtain ⟨img, gtab, ma⟩ := dwi
  cases ma with
  | absent =>
      refine ⟨⟨some h.h3.length, ?_⟩, ?_, ?_, ⟨(some h.h3.length).map
        (Heap.get3 ⟨h.h4, h.h3 ++ [np_ones (h.get4 img.dataRef).shape3]⟩), ?_⟩⟩ <;>
        simp [fit_dki, DWI.getImage, Heap.alloc3, Heap.get4, Heap.get3, fitCallsOf, gfCallsOf]
  | present v =>
      refine ⟨⟨v, ?_⟩, ?_, ?_, ⟨v.map h.get3, ?_⟩⟩ <;>
        simp [fit_dki, DWI.getImage, fitCallsOf, gfCallsOf]

/-- C2: the mask `fit_dki` passes to the external fit call is the record's
`mask` attribute, passed unchanged, when the attribute is carried; when the
record has no `mask` attribute it is a (freshly allocated) all-ones array
whose shape is the first three dimensions of the (possibly blurred) data
array that is passed alongside it. -/
theorem fit_dki_mask_arg (gf : Array4D → List ℚ → Array4D)
    (fitExt : DkiModel → Array4D → Option Array3D → FitResult)
    (dwi : DWI) (blur : Bool) (h : Heap) :
    match dwi.maskAttr with
    | MaskAttr.present v =>
        ∃ d, fitCallsOf (fit_dki gf fitExt dwi blur h).2.2 = [(⟨dwi.gtab⟩, d, v)]
    | MaskAttr.absent =>
        ∃ d r, fitCallsOf (fit_dki gf fitExt dwi blur h).2.2 =
            [(⟨dwi.gtab⟩, d, some r)] ∧
          (fit_dki gf fitExt dwi blur h).2.1.get3 r =
            np_ones ((fit_dki gf fitExt dwi blur h).2.1.get4 d).shape3 := by
  obtain ⟨img, gtab, ma⟩ := dwi
  cases ma with
  | absent =>
      cases blur with
      | false =>
          refine ⟨img.dataRef, h.h3.length, ?_, ?_⟩ <;>
            simp [fit_dki, DWI.getImage, Heap.alloc3, Heap.get3, Heap.get4,
              fitCallsOf, getD_snoc_length]
      | true =>
          refine ⟨h.h4.length, h.h3.length, ?_, ?_⟩ <;>
            simp [fit_dki, DWI.getImage, Heap.alloc3, Heap.alloc4, Heap.get3,
              Heap.get4, fitCallsOf, getD_snoc_length]
  | present v =>
      cases blur with
      | false =>
          exact ⟨img.dataRef, by simp [fit_dki, DWI.getImage, fitCallsOf]⟩
      | true =>
          exact ⟨h.h4.length,
            by simp [fit_dki, DWI.getImage, Heap.alloc4, fitCallsOf]⟩

/-- C8: `fit_dki` does not mutate the input record: the heap after the call
extends the heap before it, so every array that existed before — the
record's voxel array and its mask array in particular — is unchanged, and
the blurred data and the synthesized mask are fresh allocations. -/
theorem fit_dki_no_mutation (gf : Array4D → List ℚ → Array4D)
    (fitExt : DkiModel → Array4D → Option Array3D → FitResult)
    (dwi : DWI) (blur : Bool) (h : Heap) :
    ∃ t4 t3, (fit_dki gf fitExt dwi blur h).2.1.h4 = h.h4 ++ t4 ∧
      (fit_dki gf fitExt dwi blur h).2.1.h3 = h.h3 ++ t3 := by
  obtain ⟨img, gtab, ma⟩ := dwi
  cases blur <;> cases ma
  · exact ⟨[], [np_ones (h.get4 img.dataRef).shape3],
      by simp [fit_dki, Heap.alloc3, DWI.getImage],
      by simp [fit_dki, Heap.alloc3, DWI.getImage, Heap.get4]⟩
  · exact ⟨[], [], by simp [fit_dki], by simp [fit_dki]⟩
  · exact ⟨[gf (h.get4 img.dataRef) [1/2, 1/2, 0, 0]],
      [np_ones (gf (h.get4 img.dataRef) [1/2, 1/2, 0, 0]).shape3],
      by simp [fit_dki, Heap.alloc4, Heap.alloc3, DWI.getImage],
      by simp [fit_dki, Heap.alloc4, Heap.alloc3, DWI.getImage, Heap.get4,
        getD_snoc_length]⟩
  · exact ⟨[gf (h.get4 img.dataRef) [1/2, 1/2, 0, 0]], [],
      by simp [fit_dki, Heap.alloc4, DWI.getImage],
      by simp [fit_dki, Heap.alloc4]⟩

/-- C10: a record whose `mask` attribute is present but bound to `None`
passes that `None` verbatim to the external fit call — the all-ones
substitution happens only for a missing attribute. -/
theorem fit_dki_none_mask_verbatim (gf : Array4D → List ℚ → Array4D)
    (fitExt : DkiModel → Array4D → Option Array3D → FitResult)
    (img : NiftiImage) (gtab : GradientTable) (blur : Bool) (h : Heap) :
    ∃ d, fitCallsOf
        (fit_dki gf fitExt ⟨img, gtab, MaskAttr.present none⟩ blur h).2.2 =
      [(⟨gtab⟩, d, none)] := by
  cases blur with
  | false => exact ⟨img.dataRef, by simp [fit_dki, DWI.getImage, fitCallsOf]⟩
  | true => exact ⟨h.h4.length,
      by simp [fit_dki, DWI.getImage, Heap.alloc4, fitCallsOf]⟩

/-- C6: `main` is extensionally the composition Loader → Fitter → Writer,
`save_metric_imgs(dwi, fit_dki(dwi, blur), paths...)` with
`dwi = load_dwi(nifti_path, bval_path, bvec_path, mask_path)`: it threads
the optional arguments through with no branching of its own. -/
theorem main_eq_loader_fitter_writer
    (load_dwi : FsPath → FsPath → FsPath → Option FsPath → Heap → DWI × Heap)
    (gf : Array4D → List ℚ → Array4D)
    (fitExt : DkiModel → Array4D → Option Array3D → FitResult)
    (writeOk : FsPath → Bool)
    (nifti_path bval_path bvec_path : FsPath) (mask_path : Option FsPath)
    (blur : Bool)
    (fa_path md_path ad_path rd_path mk_path ak_path rk_path : Option FsPath)
    (h : Heap) (st : SaveState) :
    FitDkiScript.main load_dwi gf fitExt writeOk nifti_path bval_path bvec_path
        mask_path blur fa_path md_path ad_path rd_path mk_path ak_path rk_path
        h st =
      mainSpec load_dwi gf fitExt writeOk nifti_path bval_path bvec_path
        mask_path blur fa_path md_path ad_path rd_path mk_path ak_path rk_path
        h st := rfl
